/-
  Verification of the telephony-billing REST API backend
  (`app/` sources: routers, ORM models, schemas, dependencies, utils).

  The database is embedded shallowly: each table is a list of rows, SQL
  queries become list transformations following the source query structure,
  and route handlers become pure functions returning `Except` for the
  HTTP-error paths.  Monetary amounts (`Float` columns) are embedded as
  rationals; timestamps keep the components the queries inspect
  (year, month).
-/
import Mathlib

namespace TelephonyApp

/-! ## Enumerations (`app/types.py`) -/

/-- `CallStatus` enum: `IN_PROGRESS | FINISHED`. -/
inductive CallStatus where
  | IN_PROGRESS
  | FINISHED
deriving DecidableEq, Repr

/-- `PaymentStatus` enum: `PENDING | SUCCESS`. -/
inductive PaymentStatus where
  | PENDING
  | SUCCESS
deriving DecidableEq, Repr

/-! ## Timestamps

`DateTime(timezone=True)` columns.  The analytical queries only extract
`year` and `month`, so the embedding keeps those two components (plus an
abstract residue so that distinct instants stay distinguishable). -/

structure Timestamp where
  year : Int
  month : Nat
  rest : Nat := 0
deriving DecidableEq, Repr

/-! ## ORM rows (`app/orm/models.py`) -/

structure CountryRow where
  id : Nat
  name : String
  minute_cost : ℚ
deriving DecidableEq, Repr

structure CityRow where
  id : Nat
  name : String
  zip_code : String
  country_id : Nat
deriving DecidableEq, Repr

structure CategoryRow where
  id : Nat
  name : String
  discount_mtp : ℚ
  rate_id : Nat
deriving DecidableEq, Repr

structure RateRow where
  id : Nat
  cost : ℚ
deriving DecidableEq, Repr

structure CustomerRow where
  id : Nat
  fullname : String
  passport : String
  city_id : Nat
  category_id : Nat
deriving DecidableEq, Repr

structure PhoneNumberRow where
  id : Nat
  number : String
  customer_id : Nat
deriving DecidableEq, Repr

structure CallRow where
  id : Nat
  from_customer_id : Nat
  to_customer_id : Nat
  duration : ℚ
  started_at : Timestamp
  finished_at : Option Timestamp
  charge : ℚ
  status : CallStatus
deriving DecidableEq, Repr

structure PaymentRow where
  id : Nat
  amount : ℚ
  customer_id : Nat
  status : PaymentStatus
  created_at : Timestamp
  updated_at : Option Timestamp
deriving DecidableEq, Repr

structure AdminRow where
  id : Nat
  username : String
  password : String
  created_at : Timestamp
deriving DecidableEq, Repr

/-- The relational store: one list of rows per table. -/
structure DB where
  countries : List CountryRow := []
  cities : List CityRow := []
  categories : List CategoryRow := []
  rates : List RateRow := []
  customers : List CustomerRow := []
  phone_numbers : List PhoneNumberRow := []
  calls : List CallRow := []
  payments : List PaymentRow := []
  admins : List AdminRow := []
deriving DecidableEq, Repr

/-! ## Error taxonomy

FastAPI `HTTPException`s raised by the handlers, plus the uncaught Python
`TypeError` that unpacking `None` raises (propagates as a 500). -/

inductive ApiError where
  | notFound (detail : String)
  | unauthorized (detail : String)
  | conflict (detail : String)
  | typeError
deriving DecidableEq, Repr

/-- Decidable equality on handler results, so concrete runs can be checked
by `decide`. -/
def exceptDecEq {ε α : Type} [DecidableEq ε] [DecidableEq α] :
    (a b : Except ε α) → Decidable (a = b)
  | Except.error e₁, Except.error e₂ =>
    if h : e₁ = e₂ then Decidable.isTrue (by rw [h]) else Decidable.isFalse (by simp [h])
  | Except.error _, Except.ok _ => Decidable.isFalse (by simp)
  | Except.ok _, Except.error _ => Decidable.isFalse (by simp)
  | Except.ok a₁, Except.ok a₂ =>
    if h : a₁ = a₂ then Decidable.isTrue (by rw [h]) else Decidable.isFalse (by simp [h])

instance {ε α : Type} [DecidableEq ε] [DecidableEq α] : DecidableEq (Except ε α) :=
  exceptDecEq

/-! ## Read schemas (`app/schemas.py`)

Pydantic `model_validate(..., from_attributes=True)` projects a row onto
the schema's declared fields.  `CustomerReadSchema` inherits from
`_BaseCustomerSchema` (fullname, city_id, category_id) and `_IDMixin`
(id): it declares no `passport` field. -/

structure CityReadSchema where
  id : Nat
  name : String
  zip_code : String
  country_id : Nat
deriving DecidableEq, Repr

structure CustomerReadSchema where
  id : Nat
  fullname : String
  city_id : Nat
  category_id : Nat
deriving DecidableEq, Repr

structure CallReadSchema where
  id : Nat
  from_customer_id : Nat
  to_customer_id : Nat
  status : CallStatus
  duration : ℚ
  charge : ℚ
deriving DecidableEq, Repr

structure TopCitySchema where
  city : CityReadSchema
  internal_calls : Nat
deriving DecidableEq, Repr

structure MonthlyCallSumSchema where
  month : String
  total_charge : ℚ
deriving DecidableEq, Repr

structure InDebtCustomerSchema where
  customer : CustomerReadSchema
  debt : ℚ
deriving DecidableEq, Repr

structure TokenReadSchema where
  access_token : String
  token_type : String
deriving DecidableEq, Repr

/-- `CityReadSchema.model_validate(city)`. -/
def cityReadOf (c : CityRow) : CityReadSchema :=
  { id := c.id, name := c.name, zip_code := c.zip_code, country_id := c.country_id }

/-- `CustomerReadSchema.model_validate(customer)`: the schema's fields are
pulled from the row's attributes; `passport` is not among them. -/
def customerReadOf (c : CustomerRow) : CustomerReadSchema :=
  { id := c.id, fullname := c.fullname, city_id := c.city_id, category_id := c.category_id }

/-- `CallReadSchema.model_validate(call)`. -/
def callReadOf (c : CallRow) : CallReadSchema :=
  { id := c.id, from_customer_id := c.from_customer_id,
    to_customer_id := c.to_customer_id, status := c.status,
    duration := c.duration, charge := c.charge }

/-! ## `GET /cities/top` — `get_top_city` (`app/routers/cities.py`)

```
select(City, func.count().label('total_calls'))
  .join(CallFrom, City.id == CallFrom.city_id)
  .join(Call, Call.from_customer_id == CallFrom.id)
  .join(CallTo, Call.to_customer_id == CallTo.id)
  .group_by(City.id).order_by(func.count().desc()).limit(1)
```
The inner joins walk City → caller customer (`CallFrom`) → Call → callee
customer (`CallTo`); only the caller's city enters the select list.  We
materialise the joined rows as the list of city rows they project to. -/

/-- The join rows contributed by one city: its resident customers as
callers (`CallFrom`), their calls, and the calls' existing callees
(`CallTo`); each surviving row projects to the city itself. -/
def cityBlock (db : DB) (city : CityRow) : List CityRow :=
  (db.customers.filter fun cf => decide (city.id = cf.city_id)).flatMap fun cf =>
    (db.calls.filter fun call => decide (call.from_customer_id = cf.id)).flatMap fun call =>
      (db.customers.filter fun ct => decide (call.to_customer_id = ct.id)).map fun _ => city

def topCityJoined (db : DB) : List CityRow :=
  db.cities.flatMap fun city => cityBlock db city

/-- `GROUP BY City.id` with `count(*)`: one `(city, count)` pair per
distinct city id among the joined rows. -/
def topCityGroups (db : DB) : List (CityRow × Nat) :=
  let rows := topCityJoined db
  ((rows.map fun r => r.id).dedup).filterMap fun cid =>
    match rows.find? (fun r => decide (r.id = cid)) with
    | some city => some (city, (rows.filter fun r => decide (r.id = cid)).length)
    | none => none

/-- `ORDER BY count DESC LIMIT 1` then `.first()`: head of a stable
descending sort, i.e. the first group attaining the maximal count. -/
def pickTop : List (CityRow × Nat) → Option (CityRow × Nat)
  | [] => none
  | g :: gs => some (gs.foldl (fun best h => if best.2 < h.2 then h else best) g)

/-- `get_top_city`: `session.execute` always yields a `Result` object, so
the `if top_city is not None` guard is always taken and the final
`return None` is unreachable.  When the result set is empty,
`top_city.first()` is `None` and `city, internal_calls = top_city.first()`
raises `TypeError` (unpacking a non-sequence). -/
def get_top_city (db : DB) : Except ApiError (Option TopCitySchema) :=
  match pickTop (topCityGroups db) with
  | none => Except.error ApiError.typeError
  | some (city, n) =>
      Except.ok (some { city := cityReadOf city, internal_calls := n })

/-! ## `GET /customers/{id}` — `get_customer` (`app/routers/customers.py`)

`customer_repo.get(session, id=..., schema_to_select=CustomerReadSchema,
return_as_model=True)`: fetch by id, project onto the read schema, 404 when
absent. -/

def get_customer (db : DB) (customer_id : Nat) : Except ApiError CustomerReadSchema :=
  match db.customers.find? fun c => decide (c.id = customer_id) with
  | some c => Except.ok (customerReadOf c)
  | none => Except.error (ApiError.notFound "No such customer.")

/-! ## `POST /calls/finish/{id}` — `finish_call` (`app/routers/calls.py`)

`call_repo.update(session, id=call_id, status=CallStatus.IN_PROGRESS,
object=CallUpdateSchema(status=CallStatus.FINISHED), ...)`: FastCRUD first
counts the rows matching *both* filters (`id` and `status`), raises
`NoResultFound` when none match (translated to a 404), otherwise applies
the update — `CallUpdateSchema` carries only `status`, and the `Call`
model has no `updated_at` column, so only `status` is written — and
returns the updated record as `CallReadSchema`. -/

def callUpdateMatches (call_id : Nat) (c : CallRow) : Bool :=
  decide (c.id = call_id ∧ c.status = CallStatus.IN_PROGRESS)

def finish_call (db : DB) (call_id : Nat) : Except ApiError CallReadSchema × DB :=
  if (db.calls.filter (callUpdateMatches call_id)).length = 0 then
    (Except.error (ApiError.notFound "No such call or call is already finished."), db)
  else
    let newCalls := db.calls.map fun c =>
      if callUpdateMatches call_id c then { c with status := CallStatus.FINISHED } else c
    match newCalls.find? fun c => decide (c.id = call_id) with
    | some c => (Except.ok (callReadOf c), { db with calls := newCalls })
    | none => (Except.error (ApiError.notFound "No such call or call is already finished."), db)

/-! ## `POST /calls/start` — `start_call` (`app/routers/calls.py`) -/

structure CallCreateSchema where
  from_customer_id : Nat
  to_customer_id : Nat
deriving DecidableEq, Repr

/-- The `WHERE` clause of the active-call count: either customer appears on
either side of a call whose status is `IN_PROGRESS`. -/
def activeCallInvolving (data : CallCreateSchema) (c : CallRow) : Bool :=
  decide (((c.from_customer_id = data.from_customer_id ∨ c.from_customer_id = data.to_customer_id)
        ∨ (c.to_customer_id = data.from_customer_id ∨ c.to_customer_id = data.to_customer_id))
      ∧ c.status = CallStatus.IN_PROGRESS)

/-- `select(func.count()).select_from(PhoneNumber).where(customer_id == x)`. -/
def phoneCount (db : DB) (customer_id : Nat) : Nat :=
  (db.phone_numbers.filter fun p => decide (p.customer_id = customer_id)).length

/-- The row `call_repo.create` inserts: the two supplied ids plus the
model-level column defaults (`duration = 0`, `charge = 0`,
`started_at = utcnow()`, `finished_at = NULL`, `status = IN_PROGRESS`),
with the database-assigned identity value `new_id`. -/
def startedCallRow (data : CallCreateSchema) (now : Timestamp) (new_id : Nat) : CallRow :=
  { id := new_id, from_customer_id := data.from_customer_id,
    to_customer_id := data.to_customer_id, duration := 0,
    started_at := now, finished_at := none, charge := 0,
    status := CallStatus.IN_PROGRESS }

/-- `start_call`, with the identity value `new_id` and `utcnow()` passed
explicitly.  The checks run in source order: self-call, active-call
count, `from_customer` phone count, then `to_customer` phone count. -/
def start_call (db : DB) (data : CallCreateSchema) (now : Timestamp) (new_id : Nat) :
    Except ApiError CallReadSchema × DB :=
  if data.from_customer_id = data.to_customer_id then
    (Except.error (ApiError.notFound "Cannot make a call with the same customer."), db)
  else if 0 < (db.calls.filter (activeCallInvolving data)).length then
    (Except.error (ApiError.notFound "One of the customers is already in an active call."), db)
  else if phoneCount db data.from_customer_id = 0 then
    (Except.error (ApiError.notFound "from_customer must have at least one phone number."), db)
  else if phoneCount db data.to_customer_id = 0 then
    (Except.error (ApiError.notFound "to_customer must have at least one phone number."), db)
  else
    (Except.ok (callReadOf (startedCallRow data now new_id)),
     { db with calls := db.calls ++ [startedCallRow data now new_id] })

/-! ## Token store (`app/cache.py`) and authorization gate (`app/dependencies.py`)

The Redis cache is modelled as a list of `(key, value, ttl)` entries; only
unexpired entries are present (an expired key behaves exactly like an
absent one, which is how `redis.get` reports it). -/

structure StoreEntry where
  token : String
  value : Nat
  ttl : Nat
deriving DecidableEq, Repr

abbrev TokenStore := List StoreEntry

/-- `redis.get(key)`: the stored admin id, or `None`. -/
def storeGet (store : TokenStore) (key : String) : Option Nat :=
  (store.find? fun e => decide (e.token = key)).map fun e => e.value

/-- Remaining TTL of a key. -/
def storeTTL (store : TokenStore) (key : String) : Option Nat :=
  (store.find? fun e => decide (e.token = key)).map fun e => e.ttl

/-- `redis.expire(key, ttl)`: reset the TTL of an existing key. -/
def storeExpire (store : TokenStore) (key : String) (t : Nat) : TokenStore :=
  store.map fun e => if e.token = key then { e with ttl := t } else e

/-- `redis.set(key, value, ex=ttl)`: upsert the key with a fresh TTL. -/
def storeSet (store : TokenStore) (key : String) (v : Nat) (t : Nat) : TokenStore :=
  if store.any fun e => decide (e.token = key) then
    store.map fun e => if e.token = key then { token := key, value := v, ttl := t } else e
  else store ++ [{ token := key, value := v, ttl := t }]

/-- `CacheKey.access_token.format(token=...)`. -/
def cacheKey (token : String) : String := "access_token:" ++ token

/-- The seven characters of the `'Bearer '` pattern. -/
def bearerChars : List Char := "Bearer ".toList

/-- Python's `str.replace('Bearer ', '')`: remove every (non-overlapping,
left-to-right) occurrence of the pattern, not merely a leading prefix. -/
def pyReplaceBearer : List Char → List Char
  | 'B' :: 'e' :: 'a' :: 'r' :: 'e' :: 'r' :: ' ' :: rest => pyReplaceBearer rest
  | c :: rest => c :: pyReplaceBearer rest
  | [] => []

/-- `authorization.replace('Bearer ', '')`. -/
def replaceBearer (s : String) : String := String.mk (pyReplaceBearer s.toList)

/-- `check_auth_token`: 401 when the header is falsy (absent or the empty
string) or when `redis.get` on the derived cache key returns `None`
(invalid or expired token); otherwise reset the key's TTL to the
configured `access_token_ttl` and let the request through.  Stored values
are decimal renderings of admin ids, which are never the empty string, so
the code's `if not user_id` test is equivalent to the `None` test. -/
def check_auth_token (store : TokenStore) (ttlConfig : Nat) (authorization : Option String) :
    Except ApiError Unit × TokenStore :=
  match authorization with
  | none => (Except.error (ApiError.unauthorized "Invalid or missing authorization token."), store)
  | some a =>
    if a = "" then
      (Except.error (ApiError.unauthorized "Invalid or missing authorization token."), store)
    else
      let key := cacheKey (replaceBearer a)
      match storeGet store key with
      | none => (Except.error (ApiError.unauthorized "Invalid or missing authorization token."), store)
      | some _ => (Except.ok (), storeExpire store key ttlConfig)

/-! ## `POST /auth/login` — `login` (`app/routers/auth.py`, `app/utils.py`) -/

/-- `hashlib.sha256(f'{secret_key}{password}'.encode()).hexdigest()`: the
digest function itself is abstract (`hashFn`); the salting structure —
digest of the secret key concatenated with the plaintext — is the code's. -/
def generate_password_hash (hashFn : String → String) (secret_key : String)
    (password : String) : String :=
  hashFn (secret_key ++ password)

/-- A version-4 UUID: 32 hexadecimal digits (the randomness source). -/
structure Uuid where
  digits : List Char
  len_eq : digits.length = 32

/-- `str(uuid.uuid4())`: the canonical 8-4-4-4-12 hyphenated rendering. -/
def uuidString (u : Uuid) : String :=
  String.mk (u.digits.take 8 ++ ['-'] ++ (u.digits.drop 8).take 4 ++ ['-'] ++
    (u.digits.drop 12).take 4 ++ ['-'] ++ (u.digits.drop 16).take 4 ++ ['-'] ++
    u.digits.drop 20)

/-- `login`: look up the admin by username (`session.scalar` returns the
first matching row), compare the stored hash with
`generate_password_hash(password)`, and on success cache
`access_token:{token} → admin.id` with `ex=access_token_ttl` and return
the token with the literal `'bearer'` label. -/
def login (admins : List AdminRow) (store : TokenStore) (hashFn : String → String)
    (secret_key : String) (ttlConfig : Nat) (uuid4 : Uuid) (username password : String) :
    Except ApiError TokenReadSchema × TokenStore :=
  match admins.find? fun ad => decide (ad.username = username) with
  | none => (Except.error (ApiError.unauthorized "Invalid credentials."), store)
  | some admin =>
    if admin.password = generate_password_hash hashFn secret_key password then
      let token := uuidString uuid4
      (Except.ok { access_token := token, token_type := "bearer" },
       storeSet store (cacheKey token) admin.id ttlConfig)
    else
      (Except.error (ApiError.unauthorized "Invalid credentials."), store)

/-! ## `GET /customers/in_debt` — `get_customers_in_debt`
(`app/routers/customers.py`) -/

/-- `payments_sum_subq`: payments grouped by `customer_id`, `sum(amount)`
per group (one row per customer that has at least one payment). -/
def paymentSums (db : DB) : List (Nat × ℚ) :=
  ((db.payments.map fun p => p.customer_id).dedup).map fun cid =>
    (cid, ((db.payments.filter fun p => decide (p.customer_id = cid)).map fun p => p.amount).sum)

/-- `debt_subq`: every customer `OUTER JOIN`ed to its payment sum with
`coalesce(..., 0)` — customers without payments get debt `0`. -/
def customerDebt (db : DB) (cid : Nat) : ℚ :=
  match (paymentSums db).find? fun s => decide (s.1 = cid) with
  | some s => s.2
  | none => 0

/-- `SQL max(...)`: `NULL` (`none`) on an empty operand. -/
def maxOfList : List ℚ → Option ℚ
  | [] => none
  | x :: xs => some (xs.foldl max x)

/-- `get_customers_in_debt`: keep the customers whose debt is at least
`0.7 * max_debt` (comparison against the `NULL` max of an empty customer
set keeps nothing). -/
def get_customers_in_debt (db : DB) : List InDebtCustomerSchema :=
  match maxOfList (db.customers.map fun c => customerDebt db c.id) with
  | none => []
  | some m =>
    (db.customers.filter fun c => decide ((7 : ℚ)/10 * m ≤ customerDebt db c.id)).map fun c =>
      { customer := customerReadOf c, debt := customerDebt db c.id }

/-! ## `GET /customers/monthly_call_sum/{id}` — `get_monthly_call_sum`
(`app/routers/customers.py`) -/

/-- `calendar.month_name[i]` (index 0 holds the empty string). -/
def month_name : Nat → String
  | 1 => "January" | 2 => "February" | 3 => "March" | 4 => "April"
  | 5 => "May" | 6 => "June" | 7 => "July" | 8 => "August"
  | 9 => "September" | 10 => "October" | 11 => "November" | 12 => "December"
  | _ => ""

/-- The `WHERE` clause: caller is the given customer, status `FINISHED`,
`extract('year', started_at)` equals the current calendar year. -/
def monthlyFinishedCalls (db : DB) (cid : Nat) (currentYear : Int) : List CallRow :=
  db.calls.filter fun c =>
    decide (c.from_customer_id = cid ∧ c.status = CallStatus.FINISHED ∧
      c.started_at.year = currentYear)

/-- `GROUP BY month ... ORDER BY month`: one `(month, sum(charge))` pair per
distinct month among the matching calls, in ascending month order. -/
def monthlyGroups (db : DB) (cid : Nat) (currentYear : Int) : List (Nat × ℚ) :=
  let rows := monthlyFinishedCalls db cid currentYear
  (List.insertionSort (· ≤ ·) ((rows.map fun c => c.started_at.month).dedup)).map
    fun m => (m, ((rows.filter fun c => decide (c.started_at.month = m)).map fun c => c.charge).sum)

/-- `get_monthly_call_sum`: `pk_exists` 404s on an unknown customer id;
otherwise each group row is rendered with the month's full name. -/
def get_monthly_call_sum (db : DB) (customer_id : Nat) (currentYear : Int) :
    Except ApiError (List MonthlyCallSumSchema) :=
  if db.customers.any fun c => decide (c.id = customer_id) then
    Except.ok ((monthlyGroups db customer_id currentYear).map fun g =>
      { month := month_name g.1, total_charge := g.2 })
  else
    Except.error (ApiError.notFound "Invalid information supplied.")

/-! ## Spec-side definitions (for refinement comparisons only)

These follow the *specification's wording*, not the source, and exist only
to be compared against the source-derived definitions above. -/

/-- Modelled from the spec: the top-city claim's counting rule — each call
contributes to the city of each of its two participants ("join each
side's customer to its city, group by city, count"). -/
def specBothSidesCityCount (db : DB) (cityId : Nat) : Nat :=
  (db.calls.filter fun call =>
    decide (∃ cu ∈ db.customers, cu.id = call.from_customer_id ∧ cu.city_id = cityId)).length
  + (db.calls.filter fun call =>
    decide (∃ cu ∈ db.customers, cu.id = call.to_customer_id ∧ cu.city_id = cityId)).length

/-- Modelled from the spec: the authorization claim's token extraction —
"the header value with an optional `Bearer ` *prefix* stripped". -/
def specStripBearer (s : String) : String :=
  if bearerChars.isPrefixOf s.toList then String.mk (s.toList.drop 7) else s

/-- Caller-side attribution actually performed by the top-city query: the
number of calls whose caller resides in the given city. -/
def callerCityCallCount (db : DB) (cityId : Nat) : Nat :=
  (db.calls.filter fun call =>
    decide (∃ cu ∈ db.customers, cu.id = call.from_customer_id ∧ cu.city_id = cityId)).length

/-! ## Concrete fixtures for counterexamples and witnesses -/

/-- A store with one city and one customer but no calls at all. -/
def exDB1 : DB :=
  { cities := [{ id := 1, name := "B", zip_code := "z", country_id := 1 }],
    countries := [{ id := 1, name := "X", minute_cost := 1 }],
    customers := [{ id := 1, fullname := "b", passport := "p1", city_id := 1, category_id := 1 }] }

/-- A single city row used by the top-city counterexample. -/
def exCityB : CityRow := { id := 1, name := "B", zip_code := "z", country_id := 1 }

/-- One city (id 1) housing customers 1 and 2, and a single call 1 → 2
inside that city. -/
def exDB2 : DB :=
  { cities := [exCityB],
    countries := [{ id := 1, name := "X", minute_cost := 1 }],
    customers := [
      { id := 1, fullname := "b", passport := "p1", city_id := 1, category_id := 1 },
      { id := 2, fullname := "c", passport := "p2", city_id := 1, category_id := 1 }],
    calls := [{ id := 1, from_customer_id := 1, to_customer_id := 2, duration := 0,
                started_at := { year := 2025, month := 1 }, finished_at := none,
                charge := 0, status := CallStatus.IN_PROGRESS }] }

/-- Two customer rows that differ only in the passport column. -/
def exCustA : CustomerRow :=
  { id := 1, fullname := "Alice", passport := "AA111", city_id := 1, category_id := 1 }

def exCustB : CustomerRow :=
  { id := 1, fullname := "Alice", passport := "BB222", city_id := 1, category_id := 1 }

/-- A token store holding the token `"xBearer y"` (for admin 7). -/
def exStore6 : TokenStore := [{ token := cacheKey "xBearer y", value := 7, ttl := 100 }]

/-- A call in progress (id 1) between customers 1 and 2. -/
def exCall4 : CallRow :=
  { id := 1, from_customer_id := 1, to_customer_id := 2, duration := 0,
    started_at := { year := 2025, month := 1 }, finished_at := none,
    charge := 0, status := CallStatus.IN_PROGRESS }

/-- One call in progress (id 1) between customers 1 and 2. -/
def exDB4 : DB :=
  { customers := [
      { id := 1, fullname := "b", passport := "p1", city_id := 1, category_id := 1 },
      { id := 2, fullname := "c", passport := "p2", city_id := 1, category_id := 1 }],
    calls := [exCall4] }

/-- Two customers, each with a phone number, and no calls: a valid
starting state for `start_call`. -/
def exDB5 : DB :=
  { customers := [
      { id := 1, fullname := "b", passport := "p1", city_id := 1, category_id := 1 },
      { id := 2, fullname := "c", passport := "p2", city_id := 1, category_id := 1 }],
    phone_numbers := [
      { id := 1, number := "111", customer_id := 1 },
      { id := 2, number := "222", customer_id := 2 }] }

/-- A fixed UUID digit string. -/
def exUuid : Uuid := ⟨List.replicate 32 'a', by simp⟩

/-- One admin whose stored hash matches password `"pw"` under secret
`"sk"` and the identity digest function. -/
def exAdmins : List AdminRow :=
  [{ id := 3, username := "root", password := "skpw", created_at := { year := 2025, month := 1 } }]

/-- Four customers with payment totals 100, 70, 69 and 0 (the spec's
in-debt example). -/
def exDB8 : DB :=
  { customers := [
      { id := 1, fullname := "a", passport := "q1", city_id := 1, category_id := 1 },
      { id := 2, fullname := "b", passport := "q2", city_id := 1, category_id := 1 },
      { id := 3, fullname := "c", passport := "q3", city_id := 1, category_id := 1 },
      { id := 4, fullname := "d", passport := "q4", city_id := 1, category_id := 1 }],
    payments := [
      { id := 1, amount := 100, customer_id := 1, status := PaymentStatus.SUCCESS,
        created_at := { year := 2025, month := 1 }, updated_at := none },
      { id := 2, amount := 70, customer_id := 2, status := PaymentStatus.SUCCESS,
        created_at := { year := 2025, month := 1 }, updated_at := none },
      { id := 3, amount := 69, customer_id := 3, status := PaymentStatus.SUCCESS,
        created_at := { year := 2025, month := 1 }, updated_at := none }] }

/-- One customer with a `FINISHED` March call (charge 25/2) this year and
a `FINISHED` call from the previous year. -/
def exDB9 : DB :=
  { customers := [{ id := 1, fullname := "a", passport := "q1", city_id := 1, category_id := 1 }],
    calls := [
      { id := 1, from_customer_id := 1, to_customer_id := 2, duration := 1,
        started_at := { year := 2025, month := 3 }, finished_at := none,
        charge := 25/2, status := CallStatus.FINISHED },
      { id := 2, from_customer_id := 1, to_customer_id := 2, duration := 1,
        started_at := { year := 2024, month := 5 }, finished_at := none,
        charge := 7, status := CallStatus.FINISHED }] }

/-- A store holding the plain token `"t"` for admin 3 with a partly
consumed TTL. -/
def exStoreOk : TokenStore := [{ token := cacheKey "t", value := 3, ttl := 10 }]

/-! # Theorems -/

/-- C1: the top-city handler on an empty `Call` table.  The spec (and the
handler's own `response_model=TopCitySchema | None` with its `return None`
branch) promise a "no result" response, but `session.execute` always
returns a `Result` object, so the `is not None` guard never takes the
`None` branch; with no calls, `top_city.first()` is `None` and the tuple
unpacking raises `TypeError` — the request errors instead of returning
"no result". -/
theorem get_top_city_empty_calls_raises (db : DB) (h : db.calls = []) :
    get_top_city db = Except.error ApiError.typeError := by
  have hj : topCityJoined db = [] := by
    simp [topCityJoined, cityBlock, h]
  have hg : topCityGroups db = [] := by
    simp [topCityGroups, hj]
  simp [get_top_city, hg, pickTop]

/-- C1 witness: a concrete store with a city and a customer but no calls
makes the handler raise. -/
theorem get_top_city_empty_calls_raises_witness :
    exDB1.calls = [] ∧ get_top_city exDB1 = Except.error ApiError.typeError :=
  ⟨rfl, get_top_city_empty_calls_raises exDB1 rfl⟩

/-- C3 counterexample: two stored customer rows that differ only in
`passport` produce the *same* `CustomerReadSchema` through the GET
endpoint, so the stored passport is not recoverable from the read view —
the read schema does not contain every field of the stored row. -/
theorem customer_read_passport_counterexample :
    customerReadOf exCustA = customerReadOf exCustB ∧
    exCustA.passport ≠ exCustB.passport ∧
    get_customer { customers := [exCustA] } 1 = get_customer { customers := [exCustB] } 1 := by
  decide

/-- C3 amended: the customer read view carries exactly `id`, `fullname`,
`city_id` and `category_id` of the stored row; it depends on nothing
else — in particular not on `passport`, which is therefore lost. -/
theorem customer_read_amended (c c' : CustomerRow) :
    (customerReadOf c).id = c.id ∧ (customerReadOf c).fullname = c.fullname ∧
    (customerReadOf c).city_id = c.city_id ∧ (customerReadOf c).category_id = c.category_id ∧
    (c.id = c'.id → c.fullname = c'.fullname → c.city_id = c'.city_id →
      c.category_id = c'.category_id → customerReadOf c = customerReadOf c') := by
  refine ⟨rfl, rfl, rfl, rfl, fun h1 h2 h3 h4 => ?_⟩
  simp [customerReadOf, h1, h2, h3, h4]

/-- C3 amended witness: the rows `exCustA`/`exCustB` agree on the four
projected fields, hence share a read view despite different passports. -/
theorem customer_read_amended_witness :
    customerReadOf exCustA = customerReadOf exCustB :=
  (customer_read_amended exCustA exCustB).2.2.2.2 rfl rfl rfl rfl

/-- C6 counterexample: the token `"xBearer y"` is in the store and the
header carries it verbatim (no `Bearer ` *prefix* to strip), yet the gate
rejects the request with 401, because `str.replace('Bearer ', '')`
removes the pattern *anywhere* in the header, mangling the token to
`"xy"`. -/
theorem check_auth_token_replace_counterexample :
    (check_auth_token exStore6 500 (some "xBearer y")).1 =
      Except.error (ApiError.unauthorized "Invalid or missing authorization token.") ∧
    ("xBearer y" : String) ≠ "" ∧
    storeGet exStore6 (cacheKey (specStripBearer "xBearer y")) = some 7 := by
  decide

/-! ### `finish_call` helpers -/

/-- With pairwise-distinct call ids, two rows sharing an id coincide. -/
theorem call_id_unique {l : List CallRow} (hnd : (l.map fun c => c.id).Nodup)
    {r c : CallRow} (hc : c ∈ l) (hr : r ∈ l) (h : c.id = r.id) : c = r :=
  List.inj_on_of_nodup_map hnd hc hr h

/-- When no row matches both filters, the `UPDATE` matches zero rows and
FastCRUD raises `NoResultFound` → 404, leaving the store untouched. -/
theorem finish_call_not_found (db : DB) (call_id : Nat)
    (hno : ¬ ∃ c ∈ db.calls, c.id = call_id ∧ c.status = CallStatus.IN_PROGRESS) :
    finish_call db call_id =
      (Except.error (ApiError.notFound "No such call or call is already finished."), db) := by
  have hfil : db.calls.filter (callUpdateMatches call_id) = [] := by
    rw [List.filter_eq_nil_iff]
    intro c hc
    simp only [callUpdateMatches, decide_eq_true_eq]
    exact fun hcc => hno ⟨c, hc, hcc⟩
  simp [finish_call, hfil]

/-- When the row `r` with the requested id is `IN_PROGRESS`, the double
filter matches it and only its `status` column is rewritten. -/
theorem finish_call_updates (db : DB) (call_id : Nat) (r : CallRow)
    (hr : r ∈ db.calls) (hid : r.id = call_id) (hst : r.status = CallStatus.IN_PROGRESS)
    (hnd : (db.calls.map fun c => c.id).Nodup) :
    finish_call db call_id =
      (Except.ok (callReadOf { r with status := CallStatus.FINISHED }),
       { db with calls := db.calls.map fun c =>
           if c.id = call_id then { c with status := CallStatus.FINISHED } else c }) := by
  have hmem : r ∈ db.calls.filter (callUpdateMatches call_id) :=
    List.mem_filter.mpr ⟨hr, by simp [callUpdateMatches, hid, hst]⟩
  have hlen : (db.calls.filter (callUpdateMatches call_id)).length ≠ 0 := by
    simpa [List.length_eq_zero] using List.ne_nil_of_mem hmem
  have huniq : ∀ c ∈ db.calls, c.id = call_id → c = r := fun c hc hcid =>
    call_id_unique hnd hc hr (by rw [hcid, hid])
  have hmapeq : (db.calls.map fun c =>
        if callUpdateMatches call_id c then { c with status := CallStatus.FINISHED } else c)
      = db.calls.map fun c =>
        if c.id = call_id then { c with status := CallStatus.FINISHED } else c := by
    apply List.map_congr_left
    intro c hc
    by_cases h : c.id = call_id
    · have hcr : c = r := huniq c hc h
      subst hcr
      simp [callUpdateMatches, h, hst]
    · simp [callUpdateMatches, h]
  have hfind : ((db.calls.map fun c =>
        if c.id = call_id then { c with status := CallStatus.FINISHED } else c).find?
          fun c => decide (c.id = call_id))
      = some ({ r with status := CallStatus.FINISHED }) := by
    rw [List.find?_map]
    have hpred : ((fun c : CallRow => decide (c.id = call_id)) ∘ fun c =>
          if c.id = call_id then { c with status := CallStatus.FINISHED } else c)
        = fun c : CallRow => decide (c.id = call_id) := by
      funext c
      by_cases h : c.id = call_id <;> simp [h]
    rw [hpred]
    have hsome : (db.calls.find? fun c => decide (c.id = call_id)).isSome := by
      rw [List.find?_isSome]
      exact ⟨r, hr, by simp [hid]⟩
    obtain ⟨c₀, hc₀⟩ := Option.isSome_iff_exists.mp hsome
    have hc₀r : c₀ = r :=
      huniq c₀ (List.mem_of_find?_eq_some hc₀) (by simpa using List.find?_some hc₀)
    rw [hc₀, hc₀r]
    simp [Option.map_some, hid]
  simp only [finish_call, hmapeq, hfind, if_neg hlen]

/-- C4: the finish-call operation succeeds iff a call row with the given id
exists with status `IN_PROGRESS`; then that row's status becomes
`FINISHED`; on any other input it fails with the 404 "not found" response
and the store is returned unchanged. -/
theorem finish_call_success_iff (db : DB) (call_id : Nat)
    (hnd : (db.calls.map fun c => c.id).Nodup) :
    (¬ (∃ c ∈ db.calls, c.id = call_id ∧ c.status = CallStatus.IN_PROGRESS) →
        finish_call db call_id =
          (Except.error (ApiError.notFound "No such call or call is already finished."), db))
    ∧ (∀ r ∈ db.calls, r.id = call_id → r.status = CallStatus.IN_PROGRESS →
        finish_call db call_id =
          (Except.ok (callReadOf { r with status := CallStatus.FINISHED }),
           { db with calls := db.calls.map fun c =>
               if c.id = call_id then { c with status := CallStatus.FINISHED } else c })) :=
  ⟨fun hno => finish_call_not_found db call_id hno,
   fun r hr hid hst => finish_call_updates db call_id r hr hid hst hnd⟩

/-- C4 witness: in `exDB4`, finishing call 1 succeeds and flips its status;
finishing call 2 (absent) fails; finishing call 1 in the post-state (where
it is already `FINISHED`) fails again. -/
theorem finish_call_success_iff_witness :
    finish_call exDB4 1 =
      (Except.ok (callReadOf { exCall4 with status := CallStatus.FINISHED }),
       { exDB4 with calls := exDB4.calls.map fun c =>
           if c.id = 1 then { c with status := CallStatus.FINISHED } else c }) ∧
    finish_call exDB4 2 =
      (Except.error (ApiError.notFound "No such call or call is already finished."), exDB4) :=
  ⟨(finish_call_success_iff exDB4 1 (by decide)).2 exCall4 (by simp [exDB4]) rfl rfl,
   (finish_call_success_iff exDB4 2 (by decide)).1 (by simp [exDB4, exCall4])⟩

/-- C10: a successful finish changes only the matched call row's `status`
field: every other column of that row — including `finished_at`, which
stays `NULL` — keeps its prior value, every other call row is untouched,
and every other table of the database is unchanged. -/
theorem finish_call_frame (db : DB) (call_id : Nat) (r : CallRow)
    (hr : r ∈ db.calls) (hid : r.id = call_id) (hst : r.status = CallStatus.IN_PROGRESS)
    (hnd : (db.calls.map fun c => c.id).Nodup) :
    ∃ db', finish_call db call_id =
        (Except.ok (callReadOf { r with status := CallStatus.FINISHED }), db') ∧
      db'.countries = db.countries ∧ db'.cities = db.cities ∧
      db'.categories = db.categories ∧ db'.rates = db.rates ∧
      db'.customers = db.customers ∧ db'.phone_numbers = db.phone_numbers ∧
      db'.payments = db.payments ∧ db'.admins = db.admins ∧
      db'.calls.length = db.calls.length ∧
      (∀ c ∈ db.calls, c.id ≠ call_id → c ∈ db'.calls) ∧
      ({ r with status := CallStatus.FINISHED } : CallRow) ∈ db'.calls ∧
      (∀ c ∈ db'.calls, c.id = call_id → c = { r with status := CallStatus.FINISHED }) ∧
      ({ r with status := CallStatus.FINISHED } : CallRow).from_customer_id = r.from_customer_id ∧
      ({ r with status := CallStatus.FINISHED } : CallRow).to_customer_id = r.to_customer_id ∧
      ({ r with status := CallStatus.FINISHED } : CallRow).duration = r.duration ∧
      ({ r with status := CallStatus.FINISHED } : CallRow).charge = r.charge ∧
      ({ r with status := CallStatus.FINISHED } : CallRow).started_at = r.started_at ∧
      ({ r with status := CallStatus.FINISHED } : CallRow).finished_at = r.finished_at := by
  have huniq : ∀ c ∈ db.calls, c.id = call_id → c = r := fun c hc hcid =>
    call_id_unique hnd hc hr (by rw [hcid, hid])
  refine ⟨_, finish_call_updates db call_id r hr hid hst hnd,
    rfl, rfl, rfl, rfl, rfl, rfl, rfl, rfl, by simp, ?_, ?_, ?_, rfl, rfl, rfl, rfl, rfl, rfl⟩
  · intro c hc hne
    exact List.mem_map.mpr ⟨c, hc, by simp [hne]⟩
  · exact List.mem_map.mpr ⟨r, hr, by simp [hid]⟩
  · intro c hc hcid
    obtain ⟨c₀, hc₀, hmap⟩ := List.mem_map.mp hc
    by_cases h : c₀.id = call_id
    · rw [huniq c₀ hc₀ h] at hmap
      simpa [hid] using hmap.symm
    · rw [if_neg h] at hmap
      exact absurd (hmap ▸ hcid) h

/-- C10 witness: the concrete finish of call 1 in `exDB4`. -/
theorem finish_call_frame_witness :
    ∃ db', finish_call exDB4 1 =
        (Except.ok (callReadOf { exCall4 with status := CallStatus.FINISHED }), db') ∧
      db'.customers = exDB4.customers ∧ db'.phone_numbers = exDB4.phone_numbers ∧
      db'.payments = exDB4.payments := by
  obtain ⟨db', h, _, _, _, _, hcust, hph, hpay, _⟩ :=
    finish_call_frame exDB4 1 exCall4 (by simp [exDB4]) rfl rfl (by decide)
  exact ⟨db', h, hcust, hph, hpay⟩

/-! ### `start_call` -/

/-- A filter keeps something iff some element satisfies the predicate. -/
theorem filter_length_pos_iff {α : Type} (l : List α) (p : α → Bool) :
    0 < (l.filter p).length ↔ ∃ a ∈ l, p a := by
  rw [List.length_pos]
  constructor
  · intro h
    obtain ⟨a, ha⟩ := List.exists_mem_of_ne_nil _ h
    exact ⟨a, (List.mem_filter.mp ha).1, (List.mem_filter.mp ha).2⟩
  · rintro ⟨a, ha, hp⟩
    exact List.ne_nil_of_mem (List.mem_filter.mpr ⟨ha, hp⟩)

/-- The Prop form of the active-call `WHERE` clause. -/
abbrev ActiveCallExists (db : DB) (data : CallCreateSchema) : Prop :=
  ∃ c ∈ db.calls, c.status = CallStatus.IN_PROGRESS ∧
    (c.from_customer_id = data.from_customer_id ∨ c.from_customer_id = data.to_customer_id ∨
     c.to_customer_id = data.from_customer_id ∨ c.to_customer_id = data.to_customer_id)

/-- The Prop form of the phone-number prerequisite. -/
abbrev HasPhone (db : DB) (customer_id : Nat) : Prop :=
  ∃ p ∈ db.phone_numbers, p.customer_id = customer_id

theorem active_filter_pos_iff (db : DB) (data : CallCreateSchema) :
    0 < (db.calls.filter (activeCallInvolving data)).length ↔ ActiveCallExists db data := by
  rw [filter_length_pos_iff]
  unfold ActiveCallExists
  constructor
  · rintro ⟨c, hc, hp⟩
    simp only [activeCallInvolving, decide_eq_true_eq] at hp
    exact ⟨c, hc, hp.2, by tauto⟩
  · rintro ⟨c, hc, hst, hor⟩
    exact ⟨c, hc, by simp only [activeCallInvolving, decide_eq_true_eq]; exact ⟨by tauto, hst⟩⟩

theorem phoneCount_eq_zero_iff (db : DB) (customer_id : Nat) :
    phoneCount db customer_id = 0 ↔ ¬ HasPhone db customer_id := by
  rw [phoneCount, List.length_eq_zero, List.filter_eq_nil_iff]
  unfold HasPhone
  simp

/-- C5: `start_call` checks its preconditions in source order with the
first failure winning — self-call, then an existing `IN_PROGRESS` call
touching either participant, then the caller's phone count, then the
callee's — each failure a 404 with no call created; when all pass, a call
row is inserted with status `IN_PROGRESS`, `started_at = now`,
`duration = 0` and `charge = 0`. -/
theorem start_call_spec (db : DB) (data : CallCreateSchema) (now : Timestamp) (new_id : Nat) :
    (data.from_customer_id = data.to_customer_id →
      start_call db data now new_id =
        (Except.error (ApiError.notFound "Cannot make a call with the same customer."), db))
    ∧ (data.from_customer_id ≠ data.to_customer_id → ActiveCallExists db data →
      start_call db data now new_id =
        (Except.error (ApiError.notFound "One of the customers is already in an active call."),
         db))
    ∧ (data.from_customer_id ≠ data.to_customer_id → ¬ ActiveCallExists db data →
      ¬ HasPhone db data.from_customer_id →
      start_call db data now new_id =
        (Except.error (ApiError.notFound "from_customer must have at least one phone number."),
         db))
    ∧ (data.from_customer_id ≠ data.to_customer_id → ¬ ActiveCallExists db data →
      HasPhone db data.from_customer_id → ¬ HasPhone db data.to_customer_id →
      start_call db data now new_id =
        (Except.error (ApiError.notFound "to_customer must have at least one phone number."),
         db))
    ∧ (data.from_customer_id ≠ data.to_customer_id → ¬ ActiveCallExists db data →
      HasPhone db data.from_customer_id → HasPhone db data.to_customer_id →
      start_call db data now new_id =
        (Except.ok (callReadOf (startedCallRow data now new_id)),
         { db with calls := db.calls ++ [startedCallRow data now new_id] }) ∧
      (startedCallRow data now new_id).status = CallStatus.IN_PROGRESS ∧
      (startedCallRow data now new_id).started_at = now ∧
      (startedCallRow data now new_id).duration = 0 ∧
      (startedCallRow data now new_id).charge = 0 ∧
      (startedCallRow data now new_id).finished_at = none) := by
  refine ⟨fun h => by simp [start_call, h], ?_, ?_, ?_, ?_⟩
  · intro hne hact
    have h2 : 0 < (db.calls.filter (activeCallInvolving data)).length :=
      (active_filter_pos_iff db data).mpr hact
    unfold start_call
    rw [if_neg hne, if_pos h2]
  · intro hne hnact hnoph
    have h2 : ¬ 0 < (db.calls.filter (activeCallInvolving data)).length := by
      rw [active_filter_pos_iff]; exact hnact
    have h3 : phoneCount db data.from_customer_id = 0 :=
      (phoneCount_eq_zero_iff db _).mpr hnoph
    unfold start_call
    rw [if_neg hne, if_neg h2, if_pos h3]
  · intro hne hnact hph hnoph
    have h2 : ¬ 0 < (db.calls.filter (activeCallInvolving data)).length := by
      rw [active_filter_pos_iff]; exact hnact
    have h3 : phoneCount db data.from_customer_id ≠ 0 := fun h =>
      ((phoneCount_eq_zero_iff db _).mp h) hph
    have h4 : phoneCount db data.to_customer_id = 0 :=
      (phoneCount_eq_zero_iff db _).mpr hnoph
    unfold start_call
    rw [if_neg hne, if_neg h2, if_neg h3, if_pos h4]
  · intro hne hnact hphf hpht
    have h2 : ¬ 0 < (db.calls.filter (activeCallInvolving data)).length := by
      rw [active_filter_pos_iff]; exact hnact
    have h3 : phoneCount db data.from_customer_id ≠ 0 := fun h =>
      ((phoneCount_eq_zero_iff db _).mp h) hphf
    have h4 : phoneCount db data.to_customer_id ≠ 0 := fun h =>
      ((phoneCount_eq_zero_iff db _).mp h) hpht
    refine ⟨?_, rfl, rfl, rfl, rfl, rfl⟩
    unfold start_call
    rw [if_neg hne, if_neg h2, if_neg h3, if_neg h4]

/-- C5 witness: starting a call between customers 1 and 2 of `exDB5`
(both own a phone, no active calls) creates the expected row; a self-call
in the same state fails. -/
theorem start_call_spec_witness :
    start_call exDB5 { from_customer_id := 1, to_customer_id := 2 }
        { year := 2025, month := 6 } 1 =
      (Except.ok (callReadOf (startedCallRow { from_customer_id := 1, to_customer_id := 2 }
          { year := 2025, month := 6 } 1)),
       { exDB5 with calls := exDB5.calls ++
          [startedCallRow { from_customer_id := 1, to_customer_id := 2 }
            { year := 2025, month := 6 } 1] }) ∧
    start_call exDB5 { from_customer_id := 1, to_customer_id := 1 }
        { year := 2025, month := 6 } 1 =
      (Except.error (ApiError.notFound "Cannot make a call with the same customer."), exDB5) :=
  ⟨((start_call_spec exDB5 { from_customer_id := 1, to_customer_id := 2 }
      { year := 2025, month := 6 } 1).2.2.2.2 (by decide) (by decide)
      (by decide) (by decide)).1,
   (start_call_spec exDB5 { from_customer_id := 1, to_customer_id := 1 }
      { year := 2025, month := 6 } 1).1 rfl⟩

/-! ### Token store lemmas -/

/-- A `storeGet` hit means some entry carries the key. -/
theorem storeGet_some_exists {store : TokenStore} {key : String} {uid : Nat}
    (h : storeGet store key = some uid) : ∃ e ∈ store, e.token = key := by
  unfold storeGet at h
  obtain ⟨e, he, _⟩ := Option.map_eq_some'.mp h
  exact ⟨e, List.mem_of_find?_eq_some he, by simpa using List.find?_some he⟩

/-- `expire` on a present key leaves it present with the new TTL. -/
theorem storeTTL_expire (store : TokenStore) (key : String) (t : Nat)
    (h : ∃ e ∈ store, e.token = key) :
    storeTTL (storeExpire store key t) key = some t := by
  induction store with
  | nil => simp at h
  | cons e rest ih =>
    by_cases hek : e.token = key
    · simp [storeTTL, storeExpire, List.find?, hek]
    · have h' : ∃ x ∈ rest, x.token = key := by
        obtain ⟨x, hx, hxk⟩ := h
        cases List.mem_cons.mp hx with
        | inl hxe => exact absurd (hxe ▸ hxk) hek
        | inr hxr => exact ⟨x, hxr, hxk⟩
      simpa [storeTTL, storeExpire, List.find?, hek] using ih h'

/-- `C6` amended: the gate 401s exactly when the header is absent, empty,
or the *`replace`-mangled* token (every occurrence of `'Bearer '` removed,
not merely a leading prefix) has no entry in the store; on success it
resets that token's TTL to the configured value. -/
theorem check_auth_token_amended (store : TokenStore) (ttlConfig : Nat) (auth : Option String) :
    ((check_auth_token store ttlConfig auth).1 =
        Except.error (ApiError.unauthorized "Invalid or missing authorization token.") ↔
      ¬ ∃ a, auth = some a ∧ a ≠ "" ∧
        ∃ uid, storeGet store (cacheKey (replaceBearer a)) = some uid)
    ∧ (∀ a, auth = some a → a ≠ "" →
        ∀ uid, storeGet store (cacheKey (replaceBearer a)) = some uid →
          check_auth_token store ttlConfig auth =
            (Except.ok (), storeExpire store (cacheKey (replaceBearer a)) ttlConfig) ∧
          storeTTL (storeExpire store (cacheKey (replaceBearer a)) ttlConfig)
              (cacheKey (replaceBearer a)) = some ttlConfig) := by
  constructor
  · cases auth with
    | none => simp [check_auth_token]
    | some a =>
      by_cases ha : a = ""
      · subst ha
        simp [check_auth_token]
      · cases hget : storeGet store (cacheKey (replaceBearer a)) with
        | none => simp [check_auth_token, ha, hget]
        | some uid => simp [check_auth_token, ha, hget]
  · intro a ha hne uid hget
    subst ha
    exact ⟨by simp [check_auth_token, hne, hget],
           storeTTL_expire store _ ttlConfig (storeGet_some_exists hget)⟩

/-- C6 witness: a `Bearer `-prefixed header for the stored token `"t"`
passes the gate and resets the TTL from 10 to the configured 99. -/
theorem check_auth_token_amended_witness :
    check_auth_token exStoreOk 99 (some "Bearer t") =
      (Except.ok (), storeExpire exStoreOk (cacheKey (replaceBearer "Bearer t")) 99) ∧
    storeTTL (storeExpire exStoreOk (cacheKey (replaceBearer "Bearer t")) 99)
        (cacheKey (replaceBearer "Bearer t")) = some 99 :=
  (check_auth_token_amended exStoreOk 99 (some "Bearer t")).2
    "Bearer t" rfl (by decide) 3 (by decide)

/-! ### `login` -/

/-- Replacing every entry carrying the key makes the first such entry the
first hit of a subsequent lookup. -/
theorem find?_map_replace (l : TokenStore) (key : String) (v t : Nat)
    (h : ∃ e ∈ l, e.token = key) :
    (l.map fun e => if e.token = key then ({ token := key, value := v, ttl := t } : StoreEntry)
        else e).find? (fun e => decide (e.token = key)) =
      some { token := key, value := v, ttl := t } := by
  induction l with
  | nil => simp at h
  | cons e rest ih =>
    by_cases hek : e.token = key
    · simp [List.find?, hek]
    · have h' : ∃ x ∈ rest, x.token = key := by
        obtain ⟨x, hx, hxk⟩ := h
        cases List.mem_cons.mp hx with
        | inl hxe => exact absurd (hxe ▸ hxk) hek
        | inr hxr => exact ⟨x, hxr, hxk⟩
      simpa [List.find?, hek] using ih h'

/-- After `storeSet`, the key's first entry is exactly the fresh one. -/
theorem storeSet_find (store : TokenStore) (key : String) (v t : Nat) :
    (storeSet store key v t).find? (fun e => decide (e.token = key)) =
      some { token := key, value := v, ttl := t } := by
  unfold storeSet
  by_cases h : store.any fun e => decide (e.token = key)
  · rw [if_pos h]
    exact find?_map_replace store key v t (by simpa using h)
  · rw [if_neg h]
    have hmiss : store.find? (fun e => decide (e.token = key)) = none := by
      rw [List.find?_eq_none]
      intro e he
      simp only [List.any_eq_true, not_exists] at h
      simpa using fun hk => (h e) ⟨he, by simpa using hk⟩
    rw [List.find?_append, hmiss]
    simp [List.find?]

/-- `SET key value EX ttl` stores the value under the key. -/
theorem storeGet_set (store : TokenStore) (key : String) (v t : Nat) :
    storeGet (storeSet store key v t) key = some v := by
  unfold storeGet
  rw [storeSet_find]
  rfl

/-- `SET key value EX ttl` gives the key the fresh TTL. -/
theorem storeTTL_set (store : TokenStore) (key : String) (v t : Nat) :
    storeTTL (storeSet store key v t) key = some t := by
  unfold storeTTL
  rw [storeSet_find]
  rfl

/-- `str(uuid.uuid4())` always renders as 36 characters (32 hex digits
plus 4 hyphens). -/
theorem uuidString_length (u : Uuid) : (uuidString u).length = 36 := by
  have h := u.len_eq
  simp [uuidString, String.length, List.length_append, List.length_take, List.length_drop, h]

/-- C7: login succeeds iff an admin with the supplied username exists
whose stored hash equals the digest of the secret key concatenated with
the supplied password; on success the fresh 36-character token maps to the
admin's id in the store with the configured TTL and is returned with the
literal `'bearer'` label; otherwise the credentials are rejected with 401
and the store is untouched. -/
theorem login_spec (admins : List AdminRow) (store : TokenStore) (hashFn : String → String)
    (secret_key : String) (ttlConfig : Nat) (uuid4 : Uuid) (username password : String)
    (hnd : (admins.map fun a => a.username).Nodup) :
    ((¬ ∃ ad ∈ admins, ad.username = username ∧
        ad.password = hashFn (secret_key ++ password)) →
      login admins store hashFn secret_key ttlConfig uuid4 username password =
        (Except.error (ApiError.unauthorized "Invalid credentials."), store))
    ∧ (∀ ad ∈ admins, ad.username = username →
        ad.password = hashFn (secret_key ++ password) →
        login admins store hashFn secret_key ttlConfig uuid4 username password =
          (Except.ok { access_token := uuidString uuid4, token_type := "bearer" },
           storeSet store (cacheKey (uuidString uuid4)) ad.id ttlConfig) ∧
        (uuidString uuid4).length = 36 ∧
        storeGet (storeSet store (cacheKey (uuidString uuid4)) ad.id ttlConfig)
            (cacheKey (uuidString uuid4)) = some ad.id ∧
        storeTTL (storeSet store (cacheKey (uuidString uuid4)) ad.id ttlConfig)
            (cacheKey (uuidString uuid4)) = some ttlConfig) := by
  have huniq : ∀ x ∈ admins, ∀ y ∈ admins, x.username = y.username → x = y := by
    intro x hx y hy hxy
    exact List.inj_on_of_nodup_map hnd hx hy hxy
  constructor
  · intro hno
    cases hfind : admins.find? fun ad => decide (ad.username = username) with
    | none => simp [login, hfind]
    | some ad =>
      have had : ad ∈ admins := List.mem_of_find?_eq_some hfind
      have hun : ad.username = username := by simpa using List.find?_some hfind
      have hpw : ad.password ≠ generate_password_hash hashFn secret_key password := by
        intro hpw
        exact hno ⟨ad, had, hun, by simpa [generate_password_hash] using hpw⟩
      simp [login, hfind, hpw]
  · intro ad had hun hpw
    have hsome : (admins.find? fun ad => decide (ad.username = username)).isSome := by
      rw [List.find?_isSome]
      exact ⟨ad, had, by simp [hun]⟩
    obtain ⟨ad₀, hfind⟩ := Option.isSome_iff_exists.mp hsome
    have had₀ : ad₀ = ad := by
      apply huniq ad₀ (List.mem_of_find?_eq_some hfind) ad had
      rw [hun]
      simpa using List.find?_some hfind
    have hpw' : ad.password = generate_password_hash hashFn secret_key password := by
      rw [generate_password_hash]; exact hpw
    have hpw₀ : ad₀.password = generate_password_hash hashFn secret_key password := by
      rw [had₀, hpw']
    refine ⟨?_, uuidString_length uuid4, storeGet_set _ _ _ _, storeTTL_set _ _ _ _⟩
    simp [login, hfind, hpw₀, had₀, hpw']

/-- C7 witness: with the identity digest, secret `"sk"` and password
`"pw"`, admin 3 of `exAdmins` logs in; the returned token is the rendered
UUID, stored for 86400 seconds. -/
theorem login_spec_witness :
    login exAdmins [] (fun s => s) "sk" 86400 exUuid "root" "pw" =
      (Except.ok { access_token := uuidString exUuid, token_type := "bearer" },
       storeSet [] (cacheKey (uuidString exUuid)) 3 86400) ∧
    (uuidString exUuid).length = 36 ∧
    storeGet (storeSet [] (cacheKey (uuidString exUuid)) 3 86400)
        (cacheKey (uuidString exUuid)) = some 3 ∧
    storeTTL (storeSet [] (cacheKey (uuidString exUuid)) 3 86400)
        (cacheKey (uuidString exUuid)) = some 86400 :=
  (login_spec exAdmins [] (fun s => s) "sk" 86400 exUuid "root" "pw" (by decide)).2
    { id := 3, username := "root", password := "skpw", created_at := { year := 2025, month := 1 } }
    (by simp [exAdmins]) rfl rfl

/-! ### `get_customers_in_debt` -/

theorem foldl_max_spec (xs : List ℚ) (x : ℚ) :
    (x ≤ xs.foldl max x) ∧ (∀ y ∈ xs, y ≤ xs.foldl max x) ∧
    (xs.foldl max x = x ∨ xs.foldl max x ∈ xs) := by
  induction xs generalizing x with
  | nil => simp
  | cons y ys ih =>
    obtain ⟨h1, h2, h3⟩ := ih (max x y)
    rw [List.foldl_cons]
    refine ⟨le_trans (le_max_left x y) h1, ?_, ?_⟩
    · intro z hz
      cases List.mem_cons.mp hz with
      | inl hzy => rw [hzy]; exact le_trans (le_max_right x y) h1
      | inr hzys => exact h2 z hzys
    · cases h3 with
      | inl he =>
        rcases max_choice x y with hc | hc
        · left; rw [he, hc]
        · right; rw [he, hc]; exact List.mem_cons_self y ys
      | inr hm => right; exact List.mem_cons_of_mem y hm

/-- `SQL max` over a nonempty operand: attained and an upper bound. -/
theorem maxOfList_spec (l : List ℚ) (h : l ≠ []) :
    ∃ m, maxOfList l = some m ∧ m ∈ l ∧ ∀ x ∈ l, x ≤ m := by
  match l, h with
  | x :: xs, _ =>
    obtain ⟨h1, h2, h3⟩ := foldl_max_spec xs x
    refine ⟨xs.foldl max x, rfl, ?_, ?_⟩
    · cases h3 with
      | inl he => rw [he]; exact List.mem_cons_self x xs
      | inr hm => exact List.mem_cons_of_mem x hm
    · intro z hz
      cases List.mem_cons.mp hz with
      | inl hzx => exact hzx ▸ h1
      | inr hzxs => exact h2 z hzxs

theorem find?_self_of_mem {l : List Nat} {a : Nat} (h : a ∈ l) :
    l.find? (fun x => decide (x = a)) = some a := by
  induction l with
  | nil => simp at h
  | cons b t ih =>
    by_cases hb : b = a
    · simp [List.find?, hb]
    · have h' : a ∈ t := by
        cases List.mem_cons.mp h with
        | inl he => exact absurd he.symm hb
        | inr ht => exact ht
      simpa [List.find?, hb] using ih h'

/-- The grouped-then-left-joined-then-coalesced debt equals the plain sum
of the customer's payments (`0` when there are none). -/
theorem customerDebt_eq_sum (db : DB) (cid : Nat) :
    customerDebt db cid =
      ((db.payments.filter fun p => decide (p.customer_id = cid)).map fun p => p.amount).sum := by
  unfold customerDebt paymentSums
  rw [List.find?_map]
  by_cases h : cid ∈ (db.payments.map fun p => p.customer_id).dedup
  · rw [show ((fun s : Nat × ℚ => decide (s.1 = cid)) ∘ fun c =>
        (c, ((db.payments.filter fun p => decide (p.customer_id = c)).map fun p => p.amount).sum))
        = fun c : Nat => decide (c = cid) from rfl]
    rw [find?_self_of_mem h]
    rfl
  · have hfind : ((db.payments.map fun p => p.customer_id).dedup).find?
        ((fun s : Nat × ℚ => decide (s.1 = cid)) ∘ fun c =>
          (c, ((db.payments.filter fun p => decide (p.customer_id = c)).map
            fun p => p.amount).sum)) = none := by
      rw [List.find?_eq_none]
      intro x hx
      simp only [Function.comp, decide_eq_true_eq]
      intro hxc
      exact h (hxc ▸ hx)
    have hnil : db.payments.filter (fun p => decide (p.customer_id = cid)) = [] := by
      rw [List.filter_eq_nil_iff]
      intro p hp
      simp only [decide_eq_true_eq]
      intro hpc
      exact h (List.mem_dedup.mpr (List.mem_map.mpr ⟨p, hp, hpc⟩))
    rw [hfind, hnil]
    rfl

/-- C8: with at least one customer, the in-debt query returns exactly the
customers whose payment total (0 when they have no payments) reaches 70%
of the maximum total, the threshold being inclusive and the maximum being
attained by some customer. -/
theorem in_debt_spec (db : DB) (hne : db.customers ≠ []) :
    ∃ m, maxOfList (db.customers.map fun c => customerDebt db c.id) = some m ∧
      (∃ c ∈ db.customers, customerDebt db c.id = m) ∧
      (∀ c ∈ db.customers, customerDebt db c.id ≤ m) ∧
      (∀ c ∈ db.customers,
        ((7 : ℚ)/10 * m ≤ customerDebt db c.id ↔
          ({ customer := customerReadOf c, debt := customerDebt db c.id } : InDebtCustomerSchema)
            ∈ get_customers_in_debt db)) ∧
      (∀ s ∈ get_customers_in_debt db, ∃ c ∈ db.customers,
        s = { customer := customerReadOf c, debt := customerDebt db c.id } ∧
        (7 : ℚ)/10 * m ≤ s.debt) ∧
      (∀ c ∈ db.customers, customerDebt db c.id =
        ((db.payments.filter fun p => decide (p.customer_id = c.id)).map fun p => p.amount).sum) := by
  obtain ⟨m, hmax, hmem, hub⟩ :=
    maxOfList_spec (db.customers.map fun c => customerDebt db c.id) (by simpa using hne)
  have hres : get_customers_in_debt db =
      (db.customers.filter fun c => decide ((7 : ℚ)/10 * m ≤ customerDebt db c.id)).map
        fun c => { customer := customerReadOf c, debt := customerDebt db c.id } := by
    unfold get_customers_in_debt
    rw [hmax]
  refine ⟨m, hmax, ?_, ?_, ?_, ?_, fun c _ => customerDebt_eq_sum db c.id⟩
  · obtain ⟨c, hc, hcm⟩ := List.mem_map.mp hmem
    exact ⟨c, hc, hcm⟩
  · intro c hc
    exact hub _ (List.mem_map.mpr ⟨c, hc, rfl⟩)
  · intro c hc
    constructor
    · intro hth
      rw [hres]
      exact List.mem_map.mpr ⟨c, List.mem_filter.mpr ⟨hc, by simpa using hth⟩, rfl⟩
    · intro hin
      rw [hres] at hin
      obtain ⟨c', hc', heq⟩ := List.mem_map.mp hin
      have hdeq : customerDebt db c'.id = customerDebt db c.id :=
        congrArg InDebtCustomerSchema.debt heq
      have hth' := (List.mem_filter.mp hc').2
      simp only [decide_eq_true_eq] at hth'
      rw [hdeq] at hth'
      exact hth'
  · intro s hs
    rw [hres] at hs
    obtain ⟨c', hc', heq⟩ := List.mem_map.mp hs
    have hth' := (List.mem_filter.mp hc').2
    simp only [decide_eq_true_eq] at hth'
    exact ⟨c', (List.mem_filter.mp hc').1, heq.symm, by rw [← heq]; exact hth'⟩

/-- C8 witness: for `exDB8` (totals 100, 70, 69, 0) the query applies with
the nonemptiness hypothesis discharged concretely. -/
theorem in_debt_spec_witness :
    ∃ m, maxOfList (exDB8.customers.map fun c => customerDebt exDB8 c.id) = some m ∧
      (∃ c ∈ exDB8.customers, customerDebt exDB8 c.id = m) ∧
      (∀ c ∈ exDB8.customers, customerDebt exDB8 c.id ≤ m) ∧
      (∀ c ∈ exDB8.customers,
        ((7 : ℚ)/10 * m ≤ customerDebt exDB8 c.id ↔
          ({ customer := customerReadOf c, debt := customerDebt exDB8 c.id } : InDebtCustomerSchema)
            ∈ get_customers_in_debt exDB8)) ∧
      (∀ s ∈ get_customers_in_debt exDB8, ∃ c ∈ exDB8.customers,
        s = { customer := customerReadOf c, debt := customerDebt exDB8 c.id } ∧
        (7 : ℚ)/10 * m ≤ s.debt) ∧
      (∀ c ∈ exDB8.customers, customerDebt exDB8 c.id =
        ((exDB8.payments.filter fun p => decide (p.customer_id = c.id)).map
          fun p => p.amount).sum) :=
  in_debt_spec exDB8 (by decide)

/-! ### `get_monthly_call_sum` -/

/-- C9: an unknown customer id 404s; for an existing customer the result
is one row per month (in strictly increasing, i.e. chronological, order)
that has at least one `FINISHED` call *of the current year* with the
customer as caller, carrying the month's full name and the sum of those
calls' charges — calls from other years contribute nothing. -/
theorem monthly_call_sum_spec (db : DB) (customer_id : Nat) (currentYear : Int) :
    ((¬ ∃ c ∈ db.customers, c.id = customer_id) →
      get_monthly_call_sum db customer_id currentYear =
        Except.error (ApiError.notFound "Invalid information supplied."))
    ∧ ((∃ c ∈ db.customers, c.id = customer_id) →
      ∃ ms : List Nat,
        get_monthly_call_sum db customer_id currentYear =
          Except.ok (ms.map fun m =>
            { month := month_name m,
              total_charge := (((monthlyFinishedCalls db customer_id currentYear).filter
                  fun c => decide (c.started_at.month = m)).map fun c => c.charge).sum }) ∧
        ms.Sorted (· < ·) ∧
        (∀ m, m ∈ ms ↔ ∃ c ∈ db.calls, c.from_customer_id = customer_id ∧
          c.status = CallStatus.FINISHED ∧ c.started_at.year = currentYear ∧
          c.started_at.month = m)) := by
  constructor
  · intro hno
    have h : ¬ (db.customers.any fun c => decide (c.id = customer_id)) = true := by
      rw [List.any_eq_true]
      simpa using hno
    simp [get_monthly_call_sum, h]
  · intro hex
    have h : (db.customers.any fun c => decide (c.id = customer_id)) = true := by
      rw [List.any_eq_true]
      obtain ⟨c, hc, hcid⟩ := hex
      exact ⟨c, hc, by simp [hcid]⟩
    set rows := monthlyFinishedCalls db customer_id currentYear with hrows
    set ms := List.insertionSort (· ≤ ·) ((rows.map fun c => c.started_at.month).dedup)
      with hms
    have hperm := List.perm_insertionSort (· ≤ ·) ((rows.map fun c => c.started_at.month).dedup)
    refine ⟨ms, ?_, ?_, ?_⟩
    · simp [get_monthly_call_sum, h, monthlyGroups, List.map_map, hms, hrows]
    · exact (List.sorted_insertionSort (· ≤ ·) _).lt_of_le
        (hperm.nodup_iff.mpr (List.nodup_dedup _))
    · intro m
      rw [hperm.mem_iff, List.mem_dedup]
      constructor
      · intro hm
        obtain ⟨c, hc, hcm⟩ := List.mem_map.mp hm
        have hc' := List.mem_filter.mp hc
        have hp := hc'.2
        simp only [decide_eq_true_eq] at hp
        exact ⟨c, hc'.1, hp.1, hp.2.1, hp.2.2, hcm⟩
      · rintro ⟨c, hc, hfrom, hst, hyear, hmonth⟩
        exact List.mem_map.mpr ⟨c, List.mem_filter.mpr ⟨hc, by
          simp only [decide_eq_true_eq]
          exact ⟨hfrom, hst, hyear⟩⟩, hmonth⟩

/-- C9 witness: customer 1 of `exDB9` exists, so the query succeeds with
the month characterization; customer 99 does not, so it 404s. -/
theorem monthly_call_sum_spec_witness :
    get_monthly_call_sum exDB9 99 2025 =
      Except.error (ApiError.notFound "Invalid information supplied.") ∧
    ∃ ms : List Nat,
      get_monthly_call_sum exDB9 1 2025 =
        Except.ok (ms.map fun m =>
          { month := month_name m,
            total_charge := (((monthlyFinishedCalls exDB9 1 2025).filter
                fun c => decide (c.started_at.month = m)).map fun c => c.charge).sum }) ∧
      ms.Sorted (· < ·) ∧
      (∀ m, m ∈ ms ↔ ∃ c ∈ exDB9.calls, c.from_customer_id = 1 ∧
        c.status = CallStatus.FINISHED ∧ c.started_at.year = 2025 ∧
        c.started_at.month = m) :=
  ⟨(monthly_call_sum_spec exDB9 99 2025).1 (by decide),
   (monthly_call_sum_spec exDB9 1 2025).2 (by decide)⟩

/-! ### List-counting toolkit for the top-city query -/

theorem sum_map_one {α : Type} (l : List α) : (l.map fun _ => (1 : Nat)).sum = l.length := by
  induction l with
  | nil => rfl
  | cons a t ih => simp [ih]; omega

theorem length_filter_eq_sum_ite {β : Type} (l : List β) (p : β → Bool) :
    (l.filter p).length = (l.map fun b => if p b then 1 else 0).sum := by
  induction l with
  | nil => rfl
  | cons b t ih => by_cases h : p b <;> (simp [List.filter_cons, h, ih]; try omega)

theorem sum_map_add_distrib {β : Type} (l : List β) (f g : β → Nat) :
    (l.map fun b => f b + g b).sum = (l.map f).sum + (l.map g).sum := by
  induction l with
  | nil => rfl
  | cons b t ih =>
    simp only [List.map_cons, List.sum_cons, ih]
    omega

/-- Counting join pairs by the left key equals counting them by the right
key. -/
theorem sum_filter_swap {α β : Type} (A : List α) (B : List β) (p : α → β → Bool) :
    (A.map fun a => (B.filter (p a)).length).sum =
      (B.map fun b => (A.filter fun a => p a b).length).sum := by
  induction A with
  | nil => simp
  | cons a t ih =>
    simp only [List.map_cons, List.sum_cons, ih]
    rw [length_filter_eq_sum_ite B (p a)]
    have hsplit : (B.map fun b => ((a :: t).filter fun x => p x b).length) =
        (B.map fun b => (if p a b then 1 else 0) + ((t.filter fun x => p x b).length)) := by
      apply List.map_congr_left
      intro b _
      by_cases h : p a b <;> (simp [List.filter_cons, h]; try omega)
    rw [hsplit, sum_map_add_distrib]

theorem sum_ite_length {β : Type} (l : List β) (q : β → Prop) [DecidablePred q] :
    (l.map fun b => if q b then 1 else 0).sum = (l.filter fun b => decide (q b)).length := by
  induction l with
  | nil => rfl
  | cons b t ih => by_cases h : q b <;> (simp [List.filter_cons, h, ih]; try omega)

/-- A filter whose matches are forced onto a single present element of a
duplicate-free list keeps exactly one element. -/
theorem length_filter_eq_one {α : Type} (p : α → Bool) :
    ∀ (l : List α), l.Nodup → ∀ a ∈ l, p a = true → (∀ x ∈ l, p x = true → x = a) →
      (l.filter p).length = 1 := by
  intro l
  induction l with
  | nil => intro _ a ha; simp at ha
  | cons b t ih =>
    intro hnd a ha hpa huniq
    rw [List.filter_cons]
    by_cases hb : p b = true
    · have hba : b = a := huniq b (List.mem_cons_self b t) hb
      have htnil : t.filter p = [] := by
        rw [List.filter_eq_nil_iff]
        intro x hx hpx
        have hxa : x = a := huniq x (List.mem_cons_of_mem b hx) hpx
        exact (List.nodup_cons.mp hnd).1 (by rw [hba, ← hxa]; exact hx)
      simp [hb, htnil]
    · have ha' : a ∈ t := by
        cases List.mem_cons.mp ha with
        | inl h => exact absurd (h ▸ hpa) hb
        | inr h => exact h
      rw [if_neg (by simpa using hb)]
      exact ih (List.nodup_cons.mp hnd).2 a ha' hpa
        (fun x hx hpx => huniq x (List.mem_cons_of_mem b hx) hpx)

/-- Filtering a list whose elements are all `c` keeps everything or
nothing. -/
theorem filter_all_eq {α : Type} (p : α → Bool) (c : α) :
    ∀ (l : List α), (∀ x ∈ l, x = c) → l.filter p = if p c then l else [] := by
  intro l
  induction l with
  | nil => intro _; by_cases h : p c <;> simp [h]
  | cons a t ih =>
    intro hall
    have hac : a = c := hall a (List.mem_cons_self a t)
    have ht := ih fun x hx => hall x (List.mem_cons_of_mem a hx)
    rw [List.filter_cons, hac, ht]
    by_cases h : p c <;> simp [h]

/-- With duplicate-free keys, a `flatMap` whose blocks vanish except at
one key collapses to that key's block. -/
theorem flatMap_if_single {α β : Type} (f : α → Nat) (F : α → List β) :
    ∀ (l : List α), (l.map f).Nodup → ∀ c ∈ l, ∀ (G : α → List β),
      (∀ x ∈ l, G x = if f x = f c then F x else []) → l.flatMap G = F c := by
  intro l
  induction l with
  | nil => intro _ c hc; simp at hc
  | cons a t ih =>
    intro hnd c hc G hG
    rw [List.flatMap_cons]
    have hnd' : (f a :: t.map f).Nodup := by simpa using hnd
    cases List.mem_cons.mp hc with
    | inl hca =>
      have hrest : (t.flatMap G) = [] := by
        rw [List.flatMap_eq_nil_iff]
        intro x hx
        rw [hG x (List.mem_cons_of_mem a hx), if_neg]
        intro hfx
        exact (List.nodup_cons.mp hnd').1
          (by rw [← hca, ← hfx]; exact List.mem_map_of_mem f hx)
      rw [hG a (List.mem_cons_self a t), if_pos (by rw [hca]), hrest, List.append_nil, hca]
    | inr hct =>
      have hfa : f a ≠ f c := by
        intro h
        exact (List.nodup_cons.mp hnd').1 (h ▸ List.mem_map_of_mem f hct)
      rw [hG a (List.mem_cons_self a t), if_neg hfa, List.nil_append]
      exact ih (List.nodup_cons.mp hnd').2 c hct G
        (fun x hx => hG x (List.mem_cons_of_mem a hx))

/-- Every row of a city's join block projects to that city. -/
theorem cityBlock_all_eq {db : DB} {city : CityRow} :
    ∀ x ∈ cityBlock db city, x = city := by
  intro x hx
  simp only [cityBlock, List.mem_flatMap, List.mem_map] at hx
  obtain ⟨cf, _, call, _, ct, _, hx⟩ := hx
  exact hx.symm

/-- Every row of the full join is one of the stored cities. -/
theorem topCityJoined_mem {db : DB} {r : CityRow} (h : r ∈ topCityJoined db) :
    r ∈ db.cities := by
  simp only [topCityJoined, List.mem_flatMap] at h
  obtain ⟨city, hcity, hr⟩ := h
  rw [cityBlock_all_eq r hr]
  exact hcity

/-- With duplicate-free city ids, the join rows carrying one city's id are
exactly that city's block. -/
theorem topCityJoined_filter (db : DB) (city : CityRow)
    (hc : city ∈ db.cities) (H6 : (db.cities.map fun c => c.id).Nodup) :
    (topCityJoined db).filter (fun r => decide (r.id = city.id)) = cityBlock db city := by
  rw [topCityJoined, List.filter_flatMap]
  apply flatMap_if_single (fun c => c.id) (cityBlock db) db.cities H6 city hc
  intro x hx
  rw [filter_all_eq _ x _ (fun y hy => cityBlock_all_eq y hy)]
  by_cases h : x.id = city.id <;> simp [h]

/-- The length of a city's block is the number of calls whose (existing)
caller lives in that city, provided every call's callee exists and
customer ids are duplicate-free: the `CallTo` join then contributes
exactly one row per call. -/
theorem cityBlock_length (db : DB) (city : CityRow)
    (H3 : ∀ call ∈ db.calls, ∃ ct ∈ db.customers, ct.id = call.to_customer_id)
    (H5 : (db.customers.map fun c => c.id).Nodup) :
    (cityBlock db city).length = callerCityCallCount db city.id := by
  have hcnd : db.customers.Nodup := List.Nodup.of_map _ H5
  have hinj : ∀ x ∈ db.customers, ∀ y ∈ db.customers, x.id = y.id → x = y := by
    intro x hx y hy hxy
    exact List.inj_on_of_nodup_map H5 hx hy hxy
  unfold cityBlock callerCityCallCount
  rw [List.length_flatMap]
  simp only [Function.comp_def]
  have hinner : ∀ cf ∈ db.customers.filter (fun cf => decide (city.id = cf.city_id)),
      ((db.calls.filter fun call => decide (call.from_customer_id = cf.id)).flatMap fun call =>
        (db.customers.filter fun ct => decide (call.to_customer_id = ct.id)).map
          fun _ => city).length
      = (db.calls.filter fun call => decide (call.from_customer_id = cf.id)).length := by
    intro cf _
    rw [List.length_flatMap]
    simp only [Function.comp_def]
    have h1 : ∀ call ∈ db.calls.filter (fun call => decide (call.from_customer_id = cf.id)),
        ((db.customers.filter fun ct => decide (call.to_customer_id = ct.id)).map
          fun _ => city).length = 1 := by
      intro call hcall
      rw [List.length_map]
      obtain ⟨ct₀, hct₀, hctid⟩ := H3 call (List.mem_filter.mp hcall).1
      exact length_filter_eq_one _ db.customers hcnd ct₀ hct₀ (by simp [hctid])
        (fun x hx hpx => hinj x hx ct₀ hct₀ (by
          have := (decide_eq_true_eq).mp hpx
          rw [← this, hctid]))
    rw [List.map_congr_left (fun call hcall => h1 call hcall), sum_map_one]
  rw [List.map_congr_left (fun cf hcf => hinner cf hcf)]
  rw [sum_filter_swap (db.customers.filter fun cf => decide (city.id = cf.city_id)) db.calls
    (fun cf call => decide (call.from_customer_id = cf.id))]
  have h2 : ∀ call ∈ db.calls,
      ((db.customers.filter fun cf => decide (city.id = cf.city_id)).filter
        (fun cf => decide (call.from_customer_id = cf.id))).length =
      if ∃ cu ∈ db.customers, cu.id = call.from_customer_id ∧ cu.city_id = city.id
        then 1 else 0 := by
    intro call _
    by_cases hex : ∃ cu ∈ db.customers, cu.id = call.from_customer_id ∧ cu.city_id = city.id
    · rw [if_pos hex]
      obtain ⟨cu, hcu, hcuid, hcucity⟩ := hex
      apply length_filter_eq_one _ _
        (hcnd.filter _) cu
        (List.mem_filter.mpr ⟨hcu, by simp [hcucity]⟩) (by simp [hcuid])
      intro x hx hpx
      exact hinj x (List.mem_filter.mp hx).1 cu hcu
        (hcuid.trans ((decide_eq_true_eq).mp hpx)).symm
    · rw [if_neg hex]
      rw [List.length_eq_zero, List.filter_eq_nil_iff]
      intro x hx
      simp only [decide_eq_true_eq]
      intro hxid
      have hx' := List.mem_filter.mp hx
      exact hex ⟨x, hx'.1, hxid.symm, ((decide_eq_true_eq).mp hx'.2).symm⟩
  rw [List.map_congr_left (fun call hcall => h2 call hcall)]
  rw [sum_ite_length db.calls
    (fun call => ∃ cu ∈ db.customers, cu.id = call.from_customer_id ∧ cu.city_id = city.id)]

/-- Every group row of the top-city query names a stored city whose count
is the (positive) number of join rows carrying its id. -/
theorem topCityGroups_mem {db : DB} {g : CityRow × Nat} (hg : g ∈ topCityGroups db) :
    g.1 ∈ db.cities ∧
    g.2 = ((topCityJoined db).filter fun r => decide (r.id = g.1.id)).length ∧ 0 < g.2 := by
  simp only [topCityGroups, List.mem_filterMap] at hg
  obtain ⟨cid, hcid, hmatch⟩ := hg
  cases hfind : (topCityJoined db).find? (fun r => decide (r.id = cid)) with
  | none => rw [hfind] at hmatch; cases hmatch
  | some city₀ =>
    rw [hfind] at hmatch
    have hg' : g = (city₀, ((topCityJoined db).filter fun r => decide (r.id = cid)).length) := by
      simpa using hmatch.symm
    subst hg'
    have hcity₀ : city₀.id = cid := by simpa using List.find?_some hfind
    refine ⟨topCityJoined_mem (List.mem_of_find?_eq_some hfind), by rw [hcity₀], ?_⟩
    obtain ⟨r₀, hr₀, hr₀id⟩ := List.mem_map.mp (List.mem_dedup.mp hcid)
    exact List.length_pos.mpr (List.ne_nil_of_mem
      (List.mem_filter.mpr ⟨hr₀, by simp [hr₀id]⟩))

/-- Any city with at least one join row appears among the groups, with
exactly that row count. -/
theorem topCityGroups_complete {db : DB} {city : CityRow}
    (h : 0 < ((topCityJoined db).filter fun r => decide (r.id = city.id)).length) :
    ∃ g ∈ topCityGroups db, g.1.id = city.id ∧
      g.2 = ((topCityJoined db).filter fun r => decide (r.id = city.id)).length := by
  obtain ⟨r₀, hr₀f⟩ := List.exists_mem_of_ne_nil _ (List.length_pos.mp h)
  have hr₀ := List.mem_filter.mp hr₀f
  have hr₀id : r₀.id = city.id := (decide_eq_true_eq).mp hr₀.2
  have hcid : city.id ∈ ((topCityJoined db).map fun r => r.id).dedup :=
    List.mem_dedup.mpr (List.mem_map.mpr ⟨r₀, hr₀.1, hr₀id⟩)
  have hsome : ((topCityJoined db).find? fun r => decide (r.id = city.id)).isSome := by
    rw [List.find?_isSome]
    exact ⟨r₀, hr₀.1, by simp [hr₀id]⟩
  obtain ⟨city₀, hfind⟩ := Option.isSome_iff_exists.mp hsome
  refine ⟨(city₀, ((topCityJoined db).filter fun r => decide (r.id = city.id)).length),
    ?_, ?_, rfl⟩
  · simp only [topCityGroups, List.mem_filterMap]
    exact ⟨city.id, hcid, by rw [hfind]⟩
  · simpa using List.find?_some hfind

/-- The running best of the descending-order fold is itself a candidate
and dominates the seed and every list element. -/
theorem pickTop_fold_spec (gs : List (CityRow × Nat)) :
    ∀ g : CityRow × Nat,
      (g.2 ≤ (gs.foldl (fun best h => if best.2 < h.2 then h else best) g).2) ∧
      (∀ x ∈ gs, x.2 ≤ (gs.foldl (fun best h => if best.2 < h.2 then h else best) g).2) ∧
      ((gs.foldl (fun best h => if best.2 < h.2 then h else best) g) = g ∨
       (gs.foldl (fun best h => if best.2 < h.2 then h else best) g) ∈ gs) := by
  induction gs with
  | nil => intro g; simp
  | cons y ys ih =>
    intro g
    obtain ⟨h1, h2, h3⟩ := ih (if g.2 < y.2 then y else g)
    rw [List.foldl_cons]
    refine ⟨?_, ?_, ?_⟩
    · refine le_trans ?_ h1
      by_cases hgy : g.2 < y.2
      · rw [if_pos hgy]; exact le_of_lt hgy
      · rw [if_neg hgy]
    · intro x hx
      cases List.mem_cons.mp hx with
      | inl hxy =>
        refine le_trans ?_ h1
        rw [hxy]
        by_cases hgy : g.2 < y.2
        · rw [if_pos hgy]
        · rw [if_neg hgy]; exact le_of_not_lt hgy
      | inr hxys => exact h2 x hxys
    · cases h3 with
      | inl he =>
        by_cases hgy : g.2 < y.2
        · right; rw [he, if_pos hgy]; exact List.mem_cons_self y ys
        · left; rw [he, if_neg hgy]
      | inr hm => right; exact List.mem_cons_of_mem y hm

/-- `ORDER BY count DESC LIMIT 1` on a nonempty group list returns a group
of maximal count. -/
theorem pickTop_spec (gs : List (CityRow × Nat)) (hne : gs ≠ []) :
    ∃ g₀, pickTop gs = some g₀ ∧ g₀ ∈ gs ∧ ∀ g ∈ gs, g.2 ≤ g₀.2 := by
  match gs, hne with
  | g :: t, _ =>
    obtain ⟨h1, h2, h3⟩ := pickTop_fold_spec t g
    refine ⟨_, rfl, ?_, ?_⟩
    · cases h3 with
      | inl he => rw [he]; exact List.mem_cons_self g t
      | inr hm => exact List.mem_cons_of_mem g hm
    · intro x hx
      cases List.mem_cons.mp hx with
      | inl hxg => rw [hxg]; exact h1
      | inr hxt => exact h2 x hxt

/-- C2 counterexample: in `exDB2` both participants of the single call
live in city 1, so the spec's both-sides attribution counts 2; the query
returns city 1 with count 1 — each call is counted once (for the caller's
city), not once per participant. -/
theorem get_top_city_both_sides_counterexample :
    get_top_city exDB2 =
      Except.ok (some { city := cityReadOf exCityB, internal_calls := 1 }) ∧
    specBothSidesCityCount exDB2 1 = 2 ∧
    get_top_city exDB2 ≠
      Except.ok (some ⟨cityReadOf exCityB, specBothSidesCityCount exDB2 1⟩) := by
  decide

/-- C2 amended: with at least one call, all foreign keys resolving and
duplicate-free customer/city ids, the top-city query returns a stored
city together with the number of calls *whose caller lives there* (the
callee's city is joined only to require the callee's existence and
contributes no attribution), and that count is maximal over all cities. -/
theorem get_top_city_caller_city_amended (db : DB)
    (H1 : db.calls ≠ [])
    (H2 : ∀ call ∈ db.calls, ∃ cu ∈ db.customers, cu.id = call.from_customer_id)
    (H3 : ∀ call ∈ db.calls, ∃ ct ∈ db.customers, ct.id = call.to_customer_id)
    (H4 : ∀ cu ∈ db.customers, ∃ city ∈ db.cities, city.id = cu.city_id)
    (H5 : (db.customers.map fun c => c.id).Nodup)
    (H6 : (db.cities.map fun c => c.id).Nodup) :
    ∃ city n, city ∈ db.cities ∧
      get_top_city db = Except.ok (some { city := cityReadOf city, internal_calls := n }) ∧
      n = callerCityCallCount db city.id ∧ 0 < n ∧
      ∀ c ∈ db.cities, callerCityCallCount db c.id ≤ n := by
  have hcount : ∀ c ∈ db.cities,
      ((topCityJoined db).filter fun r => decide (r.id = c.id)).length =
        callerCityCallCount db c.id := by
    intro c hc
    rw [topCityJoined_filter db c hc H6, cityBlock_length db c H3 H5]
  obtain ⟨call₀, hcall₀⟩ := List.exists_mem_of_ne_nil _ H1
  obtain ⟨cu₀, hcu₀, hcu₀id⟩ := H2 call₀ hcall₀
  obtain ⟨city₀, hcity₀, hcity₀id⟩ := H4 cu₀ hcu₀
  obtain ⟨ct₀, hct₀, hct₀id⟩ := H3 call₀ hcall₀
  have hblock : city₀ ∈ cityBlock db city₀ := by
    unfold cityBlock
    refine List.mem_flatMap.mpr ⟨cu₀, List.mem_filter.mpr ⟨hcu₀, by simp [hcity₀id]⟩, ?_⟩
    refine List.mem_flatMap.mpr ⟨call₀, List.mem_filter.mpr ⟨hcall₀, by simp [hcu₀id]⟩, ?_⟩
    exact List.mem_map.mpr ⟨ct₀, List.mem_filter.mpr ⟨hct₀, by simp [hct₀id]⟩, rfl⟩
  have hrow : city₀ ∈ topCityJoined db := by
    unfold topCityJoined
    exact List.mem_flatMap.mpr ⟨city₀, hcity₀, hblock⟩
  have hpos₀ : 0 < ((topCityJoined db).filter fun r => decide (r.id = city₀.id)).length :=
    List.length_pos.mpr (List.ne_nil_of_mem (List.mem_filter.mpr ⟨hrow, by simp⟩))
  obtain ⟨g₁, hg₁, _, _⟩ := topCityGroups_complete hpos₀
  obtain ⟨g₀, hpick, hg₀mem, hg₀max⟩ := pickTop_spec _ (List.ne_nil_of_mem hg₁)
  obtain ⟨hg₀city, hg₀count, hg₀pos⟩ := topCityGroups_mem hg₀mem
  obtain ⟨gc, gn⟩ := g₀
  simp only at hg₀city hg₀count hg₀pos hg₀max
  refine ⟨gc, gn, hg₀city, ?_, ?_, hg₀pos, ?_⟩
  · unfold get_top_city
    rw [hpick]
  · rw [hg₀count, hcount gc hg₀city]
  · intro c hc
    by_cases hcpos : 0 < ((topCityJoined db).filter fun r => decide (r.id = c.id)).length
    · obtain ⟨g, hg, hgid, hgcount⟩ := topCityGroups_complete hcpos
      have hle := hg₀max g hg
      rw [← hcount c hc, ← hgcount]
      exact hle
    · rw [← hcount c hc]
      omega

/-- C2 amended witness: `exDB2` satisfies all the hypotheses concretely
(one call, resolving foreign keys, duplicate-free ids). -/
theorem get_top_city_caller_city_amended_witness :
    ∃ city n, city ∈ exDB2.cities ∧
      get_top_city exDB2 = Except.ok (some { city := cityReadOf city, internal_calls := n }) ∧
      n = callerCityCallCount exDB2 city.id ∧ 0 < n ∧
      ∀ c ∈ exDB2.cities, callerCityCallCount exDB2 c.id ≤ n :=
  get_top_city_caller_city_amended exDB2 (by decide) (by decide) (by decide)
    (by decide) (by decide) (by decide)

end TelephonyApp
